import Mathlib

/-!
Verification of the browser-side barge-in client (VAD debounce, playback
scheduling, interrupt arbitration, audio encoding and network dedup),
shallowly embedded from the JavaScript sources `app.js`, `vad-client.js`,
`silero-vad-client.js` and `audio-worklet-processor.js`.

Modelling conventions:
* JavaScript numbers (`Date.now()` timestamps, speech probabilities,
  audio samples, WebAudio clock values) are modelled as rationals; none of
  the embedded computations round, so exact arithmetic is faithful except
  for `Math.sqrt`, which is modelled by `Rat.sqrt` and only ever evaluated
  at perfect squares in concrete theorems.
* 16-bit and 32-bit machine-integer wrap-around is explicit
  (`% 2 ^ 16` / `% 2 ^ 32` on `ℤ`).
* Fallible operations (ONNX inference, WebSocket `send`) are modelled by
  `Option` results or explicit failure flags; a `catch` branch is the
  `none` / failure case.
-/

namespace MarkSales

/-! ### Float32 to PCM16 conversion
From `audio-worklet-processor.js` (`DownsampleTo16kPCM16Processor.process`)
and the unnamed `AudioProcessor.process`, which contain the identical loop:

    let sample = Math.max(-1, Math.min(1, downsampled[i]));
    pcm16[i] = sample < 0 ? sample * 32768 : sample * 32767;
-/

/-- Truncation of a rational toward zero, as JavaScript does before storing
a number into an integer-typed array. -/
def ratTrunc (x : ℚ) : ℤ := if 0 ≤ x then ⌊x⌋ else -⌊-x⌋

/-- Wrap an integer into the signed 16-bit range, as storing into an
`Int16Array` slot does (modular reduction). -/
def wrapInt16 (n : ℤ) : ℤ := (n + 32768) % 65536 - 32768

/-- JavaScript semantics of `int16Array[i] = x`: truncate toward zero, then
reduce modulo `2 ^ 16` into the signed range. -/
def jsToInt16 (x : ℚ) : ℤ := wrapInt16 (ratTrunc x)

/-- The clamp `Math.max(-1, Math.min(1, v))` from the conversion loop. -/
def clampSample (x : ℚ) : ℚ := max (-1) (min 1 x)

/-- The scaled value `sample < 0 ? sample * 32768 : sample * 32767`. -/
def scaledSample (x : ℚ) : ℚ :=
  let sample := clampSample x
  if sample < 0 then sample * 32768 else sample * 32767

/-- One element of the worklet's Float32→PCM16 conversion loop. -/
def pcm16OfSample (x : ℚ) : ℤ := jsToInt16 (scaledSample x)

lemma clampSample_bounds (x : ℚ) : -1 ≤ clampSample x ∧ clampSample x ≤ 1 := by
  unfold clampSample
  constructor
  · exact le_max_left _ _
  · exact max_le (by norm_num) (min_le_left _ _)

lemma scaledSample_bounds (x : ℚ) : -32768 ≤ scaledSample x ∧ scaledSample x ≤ 32767 := by
  obtain ⟨h1, h2⟩ := clampSample_bounds x
  unfold scaledSample
  set s := clampSample x with hs
  by_cases hneg : s < 0
  · simp only [if_pos hneg]
    constructor <;> nlinarith
  · simp only [if_neg hneg]
    push_neg at hneg
    constructor <;> nlinarith

lemma ratTrunc_bounds {x : ℚ} {a b : ℤ} (ha : (a : ℚ) ≤ x) (hb : x ≤ (b : ℚ))
    (ha0 : a ≤ 0) (hb0 : 0 ≤ b) : a ≤ ratTrunc x ∧ ratTrunc x ≤ b := by
  unfold ratTrunc
  by_cases hx : 0 ≤ x
  · simp only [if_pos hx]
    constructor
    · exact le_trans ha0 (Int.floor_nonneg.mpr hx)
    · exact (Int.floor_le_floor hb).trans_eq (Int.floor_intCast b)
  · simp only [if_neg hx]
    push_neg at hx
    constructor
    · have : ⌊-x⌋ ≤ -a := by
        have : -x ≤ ((-a : ℤ) : ℚ) := by push_cast; linarith
        exact (Int.floor_le_floor this).trans_eq (Int.floor_intCast _)
      omega
    · have : 0 ≤ ⌊-x⌋ := Int.floor_nonneg.mpr (by linarith)
      omega

/-- C9: for every input sample, the worklet's Float32→PCM16 conversion
clamps to `[-1, 1]`, scales negatives by 32768 and non-negatives by 32767,
and the emitted 16-bit value lies in `[-32768, 32767]`; the modular 16-bit
store never wraps, for any input sample, including ones outside `[-1, 1]`. -/
theorem pcm16_conversion_no_overflow (x : ℚ) :
    -32768 ≤ pcm16OfSample x ∧ pcm16OfSample x ≤ 32767 ∧
    pcm16OfSample x = ratTrunc (scaledSample x) := by
  obtain ⟨h1, h2⟩ := scaledSample_bounds x
  have hb : -32768 ≤ ratTrunc (scaledSample x) ∧ ratTrunc (scaledSample x) ≤ 32767 := by
    refine ratTrunc_bounds ?_ ?_ (by norm_num) (by norm_num)
    · push_cast; linarith
    · push_cast; linarith
  obtain ⟨hl, hr⟩ := hb
  have hwrap : wrapInt16 (ratTrunc (scaledSample x)) = ratTrunc (scaledSample x) := by
    unfold wrapInt16; omega
  unfold pcm16OfSample jsToInt16
  rw [hwrap]
  exact ⟨hl, hr, rfl⟩

/-! ### ClientVAD temporal (debounce) logic
From `vad-client.js` (`ClientVAD`). `applyTemporalLogic` updates the run
counters and computes the new debounced flag; its caller (`processWindow` /
`processEnergyVAD`) commits `isSpeaking` back into the instance, so the
composite per-frame state update is the function below. -/

structure ClientVADConfig where
  threshold : ℚ
  minSpeechDurationMs : ℕ
  minSilenceDurationMs : ℕ
  windowSizeMs : ℕ
deriving DecidableEq

/-- Math.floor(this.minSpeechDurationMs / this.windowSizeMs). -/
def minSpeechFrames (cfg : ClientVADConfig) : ℕ :=
  cfg.minSpeechDurationMs / cfg.windowSizeMs

/-- Math.floor(this.minSilenceDurationMs / this.windowSizeMs). -/
def minSilenceFrames (cfg : ClientVADConfig) : ℕ :=
  cfg.minSilenceDurationMs / cfg.windowSizeMs

structure VADTemporalState where
  speechFrames : ℕ
  silenceFrames : ℕ
  isSpeaking : Bool
deriving DecidableEq

/-- The state of a freshly constructed (or `reset`) `ClientVAD`. -/
def initialVADTemporalState : VADTemporalState :=
  { speechFrames := 0, silenceFrames := 0, isSpeaking := false }

/-- `ClientVAD.applyTemporalLogic(speechProb)` together with the caller's
commit of the returned `isSpeaking` into the instance. -/
def applyTemporalLogic (cfg : ClientVADConfig) (st : VADTemporalState)
    (speechProb : ℚ) : VADTemporalState :=
  let speechFrames := if cfg.threshold < speechProb then st.speechFrames + 1 else 0
  let silenceFrames := if cfg.threshold < speechProb then 0 else st.silenceFrames + 1
  let speaking1 :=
    if st.isSpeaking = false ∧ minSpeechFrames cfg ≤ speechFrames then true
    else st.isSpeaking
  let speaking2 :=
    if speaking1 = true ∧ minSilenceFrames cfg ≤ silenceFrames then false
    else speaking1
  { speechFrames := speechFrames, silenceFrames := silenceFrames,
    isSpeaking := speaking2 }

/-- Feed a sequence of per-frame probabilities through the debounce logic,
starting from the freshly constructed state. -/
def runVAD (cfg : ClientVADConfig) (probs : List ℚ) : VADTemporalState :=
  probs.foldl (applyTemporalLogic cfg) initialVADTemporalState

/-- Length of the maximal suffix of frames strictly above threshold. -/
def trailingSpeechRun (cfg : ClientVADConfig) (probs : List ℚ) : ℕ :=
  (probs.reverse.takeWhile (fun p => decide (cfg.threshold < p))).length

lemma applyTemporalLogic_speechFrames (cfg : ClientVADConfig)
    (st : VADTemporalState) (p : ℚ) :
    (applyTemporalLogic cfg st p).speechFrames =
      if cfg.threshold < p then st.speechFrames + 1 else 0 := by
  simp [applyTemporalLogic]

lemma runVAD_speechFrames (cfg : ClientVADConfig) (probs : List ℚ) :
    (runVAD cfg probs).speechFrames = trailingSpeechRun cfg probs := by
  induction probs using List.reverseRecOn with
  | nil => simp [runVAD, trailingSpeechRun, initialVADTemporalState]
  | append_singleton l p ih =>
      unfold runVAD at ih ⊢
      rw [List.foldl_append, List.foldl_cons, List.foldl_nil,
        applyTemporalLogic_speechFrames]
      unfold trailingSpeechRun at ih ⊢
      rw [List.reverse_append]
      by_cases hp : cfg.threshold < p
      · simp only [if_pos hp]
        simp [List.takeWhile_cons, hp, ih]
      · simp only [if_neg hp]
        simp [List.takeWhile_cons, hp]

/-- The example configuration of §8 of the spec: threshold 0.5 and
`minSpeechFrames = 3` (250 ms at a 64 ms window), `minSilenceFrames = 1`,
the constructor defaults of `ClientVAD`. -/
def exampleVADConfig : ClientVADConfig :=
  { threshold := 1/2, minSpeechDurationMs := 250, minSilenceDurationMs := 100,
    windowSizeMs := 64 }

/-- The probability sequence [0.9, 0.9, 0.4, 0.9, 0.9, 0.9] of the claim. -/
def exampleVADSeq : List ℚ := [9/10, 9/10, 2/5, 9/10, 9/10, 9/10]

/-- C4: with `N = minSpeechFrames ≥ 1` and `M = minSilenceFrames ≥ 1`,
`isSpeaking` flips false→true only on a frame strictly above threshold that
completes a run of at least `N` consecutive above-threshold frames (so the
last `N` frames processed are all strictly above threshold), flips
true→false only on a frame at or below threshold completing a run of at
least `M` such frames, a single contrary frame resets the accumulating run
counter to zero, and on [0.9, 0.9, 0.4, 0.9, 0.9, 0.9] with `N = 3` speech
start triggers exactly at the sixth frame. -/
theorem vad_debounce_correct (cfg : ClientVADConfig)
    (hN : 1 ≤ minSpeechFrames cfg) (hM : 1 ≤ minSilenceFrames cfg) :
    (∀ st p, st.isSpeaking = false → (applyTemporalLogic cfg st p).isSpeaking = true →
      cfg.threshold < p ∧
      (applyTemporalLogic cfg st p).speechFrames = st.speechFrames + 1 ∧
      minSpeechFrames cfg ≤ st.speechFrames + 1) ∧
    (∀ st p, st.isSpeaking = true → (applyTemporalLogic cfg st p).isSpeaking = false →
      p ≤ cfg.threshold ∧
      (applyTemporalLogic cfg st p).silenceFrames = st.silenceFrames + 1 ∧
      minSilenceFrames cfg ≤ st.silenceFrames + 1) ∧
    (∀ st p, (p ≤ cfg.threshold → (applyTemporalLogic cfg st p).speechFrames = 0) ∧
      (cfg.threshold < p → (applyTemporalLogic cfg st p).silenceFrames = 0)) ∧
    (∀ probs p, (runVAD cfg probs).isSpeaking = false →
      (runVAD cfg (probs ++ [p])).isSpeaking = true →
      minSpeechFrames cfg ≤ trailingSpeechRun cfg (probs ++ [p])) ∧
    ((∀ k, k < 6 → (runVAD exampleVADConfig (exampleVADSeq.take k)).isSpeaking = false) ∧
      (runVAD exampleVADConfig exampleVADSeq).isSpeaking = true) := by
  have hstart : ∀ st p, st.isSpeaking = false →
      (applyTemporalLogic cfg st p).isSpeaking = true →
      cfg.threshold < p ∧
      (applyTemporalLogic cfg st p).speechFrames = st.speechFrames + 1 ∧
      minSpeechFrames cfg ≤ st.speechFrames + 1 := by
    intro st p hfalse htrue
    by_cases hp : cfg.threshold < p
    · refine ⟨hp, ?_, ?_⟩
      · simp [applyTemporalLogic, hp]
      · by_contra hlt
        push_neg at hlt
        have : (applyTemporalLogic cfg st p).isSpeaking = false := by
          simp [applyTemporalLogic, hp, hfalse, Nat.not_le.mpr hlt]
        simp [this] at htrue
    · exfalso
      have : (applyTemporalLogic cfg st p).isSpeaking = false := by
        simp [applyTemporalLogic, hp, hfalse, Nat.not_le.mpr hN]
      simp [this] at htrue
  refine ⟨hstart, ?_, ?_, ?_, ?_⟩
  · intro st p htrue hfalse
    by_cases hp : cfg.threshold < p
    · exfalso
      have : (applyTemporalLogic cfg st p).isSpeaking = true := by
        simp [applyTemporalLogic, hp, htrue, Nat.not_le.mpr hM]
      simp [this] at hfalse
    · refine ⟨not_lt.mp hp, ?_, ?_⟩
      · simp [applyTemporalLogic, hp]
      · by_contra hlt
        push_neg at hlt
        have : (applyTemporalLogic cfg st p).isSpeaking = true := by
          simp [applyTemporalLogic, hp, htrue, Nat.not_le.mpr hlt]
        simp [this] at hfalse
  · intro st p
    constructor
    · intro hp
      simp [applyTemporalLogic, not_lt.mpr hp]
    · intro hp
      simp [applyTemporalLogic, hp]
  · intro probs p hbefore hafter
    have hstep := hstart (runVAD cfg probs) p hbefore
    rw [runVAD, List.foldl_append, List.foldl_cons, List.foldl_nil] at hafter
    obtain ⟨-, h2, h3⟩ := hstep hafter
    have hsf : (applyTemporalLogic cfg (runVAD cfg probs) p).speechFrames =
        trailingSpeechRun cfg (probs ++ [p]) := by
      have := runVAD_speechFrames cfg (probs ++ [p])
      rwa [runVAD, List.foldl_append, List.foldl_cons, List.foldl_nil] at this
    rw [runVAD_speechFrames] at h2 h3
    omega
  · constructor
    · intro k hk
      interval_cases k <;>
        norm_num [runVAD, exampleVADSeq, exampleVADConfig, applyTemporalLogic,
          initialVADTemporalState, minSpeechFrames, minSilenceFrames]
    · norm_num [runVAD, exampleVADSeq, exampleVADConfig, applyTemporalLogic,
        initialVADTemporalState, minSpeechFrames, minSilenceFrames]

/-- Witness for C4: the hypotheses hold for the example configuration
(N = 3, M = 1) and on [0.9, 0.9, 0.4, 0.9, 0.9, 0.9] speech is detected
after the sixth frame. -/
theorem vad_debounce_correct_witness :
    (1 ≤ minSpeechFrames exampleVADConfig ∧ 1 ≤ minSilenceFrames exampleVADConfig) ∧
    (runVAD exampleVADConfig exampleVADSeq).isSpeaking = true :=
  ⟨⟨by decide, by decide⟩,
    (vad_debounce_correct exampleVADConfig (by decide) (by decide)).2.2.2.2.2⟩

/-! ### Silero VAD client
From `silero-vad-client.js` (`SileroVADClient`). The ONNX inference call
`this.model.run` is modelled by a caller-supplied function returning
`Option`; `none` models a thrown inference error, landing in the `catch`
branch of `processFrame`. Times are `Date.now()` values. -/

structure SileroOptions where
  threshold : ℚ
  minSpeechDurationMs : ℚ
  minSilenceDurationMs : ℚ
deriving DecidableEq

/-- The constructor defaults of `SileroVADClient`. -/
def defaultSileroOptions : SileroOptions :=
  { threshold := 1/2, minSpeechDurationMs := 250, minSilenceDurationMs := 200 }

/-- The LSTM hidden and cell state tensors `h` and `c`. -/
structure RNNState where
  h : List ℚ
  c : List ℚ
deriving DecidableEq

structure SileroState where
  rnn : RNNState
  speechProb : ℚ
  isSpeaking : Bool
  speechStartTime : ℚ
  silenceStartTime : ℚ
  lastStateChange : ℚ
deriving DecidableEq

/-- The state of a freshly constructed (or `reset`) `SileroVADClient`. -/
def initialSileroState : SileroState :=
  { rnn := { h := [], c := [] }, speechProb := 0, isSpeaking := false,
    speechStartTime := 0, silenceStartTime := 0, lastStateChange := 0 }

/-- The per-frame result `{speechProb, isSpeaking, stateChanged}`. -/
structure SileroResult where
  speechProb : ℚ
  isSpeaking : Bool
  stateChanged : Bool
deriving DecidableEq

/-- `SileroVADClient.updateVADState(speechProb)`: the time-based temporal
logic of the model path. `now` is the `Date.now()` read at entry. -/
def updateVADState (opts : SileroOptions) (st0 : SileroState)
    (speechProb now : ℚ) : SileroState × SileroResult :=
  let wasSpeaking := st0.isSpeaking
  let st1 := { st0 with speechProb := speechProb }
  let currentlySpeaking := opts.threshold < speechProb
  let st2 :=
    if wasSpeaking = false ∧ currentlySpeaking then
      if st1.speechStartTime = 0 then { st1 with speechStartTime := now }
      else if opts.minSpeechDurationMs ≤ now - st1.speechStartTime then
        { st1 with isSpeaking := true, silenceStartTime := 0, lastStateChange := now }
      else st1
    else if wasSpeaking = true ∧ ¬currentlySpeaking then
      if st1.silenceStartTime = 0 then { st1 with silenceStartTime := now }
      else if opts.minSilenceDurationMs ≤ now - st1.silenceStartTime then
        { st1 with isSpeaking := false, speechStartTime := 0, lastStateChange := now }
      else st1
    else if currentlySpeaking then { st1 with silenceStartTime := 0 }
    else { st1 with speechStartTime := 0 }
  (st2, { speechProb := st2.speechProb, isSpeaking := st2.isSpeaking,
          stateChanged := wasSpeaking ≠ st2.isSpeaking })

/-- `SileroVADClient.processFrame(audioFrame)`. `infer` models
`this.model.run`: given the current recurrent state and the frame it either
returns the speech probability and the updated recurrent state, or fails
(`none`), which lands in the `catch` branch returning the last known
state with `isSpeaking` unchanged. -/
def processFrame (infer : RNNState → List ℚ → Option (ℚ × RNNState))
    (opts : SileroOptions) (st : SileroState) (frame : List ℚ) (now : ℚ) :
    SileroState × SileroResult :=
  match infer st.rnn frame with
  | none =>
      (st, { speechProb := st.speechProb, isSpeaking := st.isSpeaking,
             stateChanged := false })
  | some (speechProb, rnn2) =>
      updateVADState opts { st with rnn := rnn2 } speechProb now

/-- The frame loop of `SileroVADClient.processAudio`, restricted to whole
frames (each paired with the `Date.now()` at which it is processed);
returns the state after the loop. -/
def processFrames (infer : RNNState → List ℚ → Option (ℚ × RNNState))
    (opts : SileroOptions) (st : SileroState) (frames : List (List ℚ × ℚ)) :
    SileroState :=
  frames.foldl (fun s ft => (processFrame infer opts s ft.1 ft.2).1) st

/-- C8: an inference failure on a single frame returns the last known
state with `isSpeaking` (and the recurrent state) unchanged, and
processing a frame list containing a frame that always fails is the same
as processing the list without it — the stream continues. -/
theorem inference_failure_resilient
    (infer : RNNState → List ℚ → Option (ℚ × RNNState)) (opts : SileroOptions) :
    (∀ st frame now, infer st.rnn frame = none →
      processFrame infer opts st frame now =
        (st, { speechProb := st.speechProb, isSpeaking := st.isSpeaking,
               stateChanged := false })) ∧
    (∀ (bad : List ℚ) (tb : ℚ) (pre post : List (List ℚ × ℚ)) st,
      (∀ r, infer r bad = none) →
      processFrames infer opts st (pre ++ (bad, tb) :: post) =
        processFrames infer opts st (pre ++ post)) := by
  have hone : ∀ st frame now, infer st.rnn frame = none →
      processFrame infer opts st frame now =
        (st, { speechProb := st.speechProb, isSpeaking := st.isSpeaking,
               stateChanged := false }) := by
    intro st frame now hfail
    unfold processFrame
    rw [hfail]
  refine ⟨hone, ?_⟩
  intro bad tb pre post st hfail
  induction pre generalizing st with
  | nil =>
      unfold processFrames
      rw [List.nil_append, List.nil_append, List.foldl_cons]
      have := hone st bad tb (hfail st.rnn)
      rw [this]
  | cons f fs ih =>
      unfold processFrames at ih ⊢
      rw [List.cons_append, List.foldl_cons, List.cons_append, List.foldl_cons]
      exact ih _

/-- A sample inference oracle that fails exactly on frames that are not of
length 2, used to witness C8. -/
def exampleInfer : RNNState → List ℚ → Option (ℚ × RNNState) :=
  fun rnn frame => if frame.length = 2 then some (9/10, rnn) else none

/-- Witness for C8: a failing frame leaves the state alone and is skipped
inside a stream. -/
theorem inference_failure_resilient_witness :
    processFrame exampleInfer defaultSileroOptions initialSileroState [1] 5 =
      (initialSileroState,
        { speechProb := initialSileroState.speechProb,
          isSpeaking := initialSileroState.isSpeaking, stateChanged := false }) ∧
    processFrames exampleInfer defaultSileroOptions initialSileroState
        [([1, 1], 10), ([1], 20), ([1, 1], 30)] =
      processFrames exampleInfer defaultSileroOptions initialSileroState
        [([1, 1], 10), ([1, 1], 30)] :=
  ⟨(inference_failure_resilient exampleInfer defaultSileroOptions).1
      initialSileroState [1] 5 (by simp [exampleInfer]),
    (inference_failure_resilient exampleInfer defaultSileroOptions).2
      [1] 20 [([1, 1], 10)] [([1, 1], 30)] initialSileroState
      (fun r => by simp [exampleInfer])⟩

/-! ### Energy-based fallback paths
`SileroVADClient.energyBasedVAD` (silero-vad-client.js),
`ClientVAD.processEnergyVAD` and the fallback arm of
`ClientVAD.processWindow` (vad-client.js). -/

/-- Sum of squared samples, the accumulation loop of the RMS computation. -/
def sumSquares (chunk : List ℚ) : ℚ := (chunk.map fun x => x * x).sum

/-- `Math.sqrt(energy / audioChunk.length)`: the RMS energy of a chunk.
`Math.sqrt` is modelled by `Rat.sqrt`, which agrees with the real square
root on the perfect squares at which concrete theorems evaluate it. -/
def rmsEnergy (chunk : List ℚ) : ℚ := Rat.sqrt (sumSquares chunk / chunk.length)

structure VADResult where
  speechProb : ℚ
  isSpeaking : Bool
deriving DecidableEq

/-- `SileroVADClient.energyBasedVAD(audioChunk)`: linear pseudo-probability
`min(1, max(0, (energy - 0.01) * 10))` and a direct threshold comparison —
note it consults no temporal-debounce state at all. -/
def energyBasedVAD (opts : SileroOptions) (chunk : List ℚ) : VADResult :=
  let energy := rmsEnergy chunk
  let speechProb := min 1 (max 0 ((energy - 1/100) * 10))
  { speechProb := speechProb, isSpeaking := decide (opts.threshold < speechProb) }

/-- `ClientVAD.processEnergyVAD(audioChunk)`: step pseudo-probability
(`0.8` if the energy exceeds `0.01`, else `0.2`), then the same
`applyTemporalLogic` as the model path; returns the committed temporal
state and the pseudo-probability. -/
def processEnergyVAD (cfg : ClientVADConfig) (st : VADTemporalState)
    (chunk : List ℚ) : VADTemporalState × ℚ :=
  let energy := rmsEnergy chunk
  let speechProb : ℚ := if 1/100 < energy then 8/10 else 2/10
  (applyTemporalLogic cfg st speechProb, speechProb)

/-- `ClientVAD.processWindow(audioWindow)` reduced to its temporal-state
effect: the model path applies `applyTemporalLogic` to the inferred
probability; an inference error (`none`) falls back to
`processEnergyVAD`. -/
def clientProcessWindow (inferProb : Option ℚ) (cfg : ClientVADConfig)
    (st : VADTemporalState) (window : List ℚ) : VADTemporalState × ℚ :=
  match inferProb with
  | some p => (applyTemporalLogic cfg st p, p)
  | none => processEnergyVAD cfg st window

/-- Counterexample to C7: `SileroVADClient`'s energy fallback does not
apply the model path's temporal debounce before reporting `isSpeaking`.
On a single all-ones chunk (RMS energy 1) from the fresh state it
immediately reports `isSpeaking = true`, while the model path's temporal
logic (`updateVADState`) fed the very same pseudo-probability from the
same fresh state reports `isSpeaking = false` (the first above-threshold
reading only starts the minimum-speech-duration clock). -/
theorem energy_fallback_counterexample :
    (energyBasedVAD defaultSileroOptions [1, 1, 1, 1]).isSpeaking = true ∧
    ((updateVADState defaultSileroOptions initialSileroState
        (energyBasedVAD defaultSileroOptions [1, 1, 1, 1]).speechProb 1000).2).isSpeaking
      = false := by
  have hrms : rmsEnergy [1, 1, 1, 1] = 1 := by
    norm_num [rmsEnergy, sumSquares]
  constructor
  · norm_num [energyBasedVAD, hrms, defaultSileroOptions]
  · norm_num [energyBasedVAD, hrms, updateVADState, initialSileroState,
      defaultSileroOptions]

/-- C7 as amended: both fallbacks compute the chunk's RMS energy, but only
`ClientVAD`'s fallback applies the model path's temporal debounce:
(1) `ClientVAD.processEnergyVAD` produces exactly the temporal state the
model path (`clientProcessWindow` on the model's probability) would
produce when fed the fallback's pseudo-probability — the same
`applyTemporalLogic` debounce; its pseudo-probability is the step map
`0.8 / 0.2` around energy `0.01`, not a linear scale;
(2) `SileroVADClient.energyBasedVAD` maps RMS energy through the fixed
linear scale `min(1, max(0, (rms - 0.01) * 10))` but reports `isSpeaking`
by direct threshold comparison with no debounce: whenever the scaled
probability exceeds the threshold it reports speaking at once, from any
single frame;
(3) concretely, a first all-ones frame makes the silero fallback report
speaking while the debounced `ClientVAD` fallback (N = 3) does not. -/
theorem energy_fallback_amended :
    (∀ cfg st chunk,
      (processEnergyVAD cfg st chunk).1 =
        (clientProcessWindow (some (processEnergyVAD cfg st chunk).2) cfg st chunk).1 ∧
      ((processEnergyVAD cfg st chunk).2 = 8/10 ∨ (processEnergyVAD cfg st chunk).2 = 2/10)) ∧
    (∀ opts chunk,
      (energyBasedVAD opts chunk).speechProb =
        min 1 (max 0 ((rmsEnergy chunk - 1/100) * 10)) ∧
      (opts.threshold < (energyBasedVAD opts chunk).speechProb →
        (energyBasedVAD opts chunk).isSpeaking = true)) ∧
    ((energyBasedVAD defaultSileroOptions [1, 1, 1, 1]).isSpeaking = true ∧
      (processEnergyVAD exampleVADConfig initialVADTemporalState [1, 1, 1, 1]).1.isSpeaking
        = false) := by
  have hrms : rmsEnergy [1, 1, 1, 1] = 1 := by
    norm_num [rmsEnergy, sumSquares]
  refine ⟨?_, ?_, ?_, ?_⟩
  · intro cfg st chunk
    constructor
    · rfl
    · by_cases h : (1 : ℚ)/100 < rmsEnergy chunk
      · left
        simp only [processEnergyVAD]
        rw [if_pos h]
      · right
        simp only [processEnergyVAD]
        rw [if_neg h]
  · intro opts chunk
    refine ⟨rfl, ?_⟩
    intro h
    simp only [energyBasedVAD]
    exact decide_eq_true h
  · norm_num [energyBasedVAD, hrms, defaultSileroOptions]
  · norm_num [processEnergyVAD, hrms, applyTemporalLogic,
      initialVADTemporalState, exampleVADConfig, minSpeechFrames, minSilenceFrames]

/-- Witness for the amended C7: the silero fallback's threshold hypothesis
holds on the all-ones chunk, on which it reports speaking at once. -/
theorem energy_fallback_amended_witness :
    defaultSileroOptions.threshold <
      (energyBasedVAD defaultSileroOptions [1, 1, 1, 1]).speechProb ∧
    (energyBasedVAD defaultSileroOptions [1, 1, 1, 1]).isSpeaking = true := by
  have hthr : defaultSileroOptions.threshold <
      (energyBasedVAD defaultSileroOptions [1, 1, 1, 1]).speechProb := by
    have hrms : rmsEnergy [1, 1, 1, 1] = 1 := by
      norm_num [rmsEnergy, sumSquares]
    norm_num [energyBasedVAD, hrms, defaultSileroOptions]
  exact ⟨hthr,
    (energy_fallback_amended.2.1 defaultSileroOptions [1, 1, 1, 1]).2 hthr⟩

/-! ### Application playback state and `stopAudioPlayback`
From `app.js` (`SalesAgentApp`). Only the fields the playback scheduler
and interrupt arbiter read or write are modelled; DOM audio elements are
external to this state. `webAudioAvailable` models
`this.webAudioContext` being non-null; `currentAudioTime` is the gapless
scheduling cursor; `ctxNow` passed to operations models the WebAudio
clock `this.webAudioContext.currentTime`. -/

/-- An entry of `this.audioQueue`: `{data, sampleRate}` pushed by the
`ai_response_chunk` handler. -/
structure SynthesisChunk where
  data : List ℤ
  sampleRate : ℕ
deriving DecidableEq

/-- An outbound `{type: "interrupt", ...}` WebSocket message. -/
structure InterruptMsg where
  source : String
  speechProb : Option ℚ
  timestamp : Option ℚ
deriving DecidableEq

structure AppState where
  audioQueue : List SynthesisChunk
  isAudioPlaying : Bool
  isAiSpeaking : Bool
  webAudioAvailable : Bool
  scheduledBuffers : List ℕ
  currentAudioTime : ℚ
  lastAudioStartTime : ℚ
  lastInterruptTime : ℚ
  userHasSpoken : Bool
  falsePositiveTimerArmed : Bool
  serverVADBuffer : List ℚ
  sentMessages : List InterruptMsg
deriving DecidableEq

/-- `SalesAgentApp.stopAudioPlayback()`: clear the queue and both flags,
stop and drop all scheduled WebAudio sources, and reset the scheduling
cursor to the WebAudio clock. Pausing DOM `<audio>` elements is an
external effect outside this state. -/
def stopAudioPlayback (st : AppState) (ctxNow : ℚ) : AppState :=
  let st1 := { st with audioQueue := [], isAudioPlaying := false,
                       isAiSpeaking := false }
  let st2 :=
    if st1.webAudioAvailable = true ∧ st1.scheduledBuffers ≠ [] then
      { st1 with scheduledBuffers := [] }
    else st1
  if st2.webAudioAvailable = true then { st2 with currentAudioTime := ctxNow }
  else st2

/-- Nothing is playing and the scheduling cursor is already current: the
idle configuration a stop is supposed to leave behind. -/
def playbackIdle (st : AppState) (ctxNow : ℚ) : Prop :=
  st.audioQueue = [] ∧ st.isAudioPlaying = false ∧ st.isAiSpeaking = false ∧
  st.scheduledBuffers = [] ∧
  (st.webAudioAvailable = true → st.currentAudioTime = ctxNow)

/-- C5: `stopAudioPlayback` is idempotent — a second call (at the same
WebAudio clock reading) produces exactly the state of the first; one call
leaves the queue empty, both speaking flags false, no scheduled sources,
and the scheduling cursor reset to now; and a call on an already idle
state is a no-op on that state. The function is total: no input raises an
error. -/
theorem stop_and_flush_idempotent (st : AppState) (ctxNow : ℚ) :
    stopAudioPlayback (stopAudioPlayback st ctxNow) ctxNow =
      stopAudioPlayback st ctxNow ∧
    ((stopAudioPlayback st ctxNow).audioQueue = [] ∧
      (stopAudioPlayback st ctxNow).isAudioPlaying = false ∧
      (stopAudioPlayback st ctxNow).isAiSpeaking = false ∧
      (st.webAudioAvailable = true →
        (stopAudioPlayback st ctxNow).scheduledBuffers = [] ∧
        (stopAudioPlayback st ctxNow).currentAudioTime = ctxNow)) ∧
    (playbackIdle st ctxNow → stopAudioPlayback st ctxNow = st) := by
  rcases st with ⟨q, play, ai, web, sched, cat, last, li, uhs, fpt, svb, sm⟩
  refine ⟨?_, ?_, ?_⟩
  · cases web <;> by_cases hs : sched = [] <;>
      simp [stopAudioPlayback, hs]
  · cases web <;> by_cases hs : sched = [] <;>
      simp [stopAudioPlayback, hs]
  · rintro ⟨h1, h2, h3, h4, h5⟩
    simp only at h1 h2 h3 h4 h5
    subst h1 h2 h3 h4
    cases web
    · simp [stopAudioPlayback]
    · simp [stopAudioPlayback, h5 rfl]

/-- Witness for C5: stopping an already idle session changes nothing. -/
theorem stop_and_flush_idempotent_witness :
    playbackIdle
      { audioQueue := [], isAudioPlaying := false, isAiSpeaking := false,
        webAudioAvailable := true, scheduledBuffers := [],
        currentAudioTime := 7, lastAudioStartTime := 0,
        lastInterruptTime := 0, userHasSpoken := false,
        falsePositiveTimerArmed := false, serverVADBuffer := [],
        sentMessages := [] } 7 ∧
    stopAudioPlayback
      { audioQueue := [], isAudioPlaying := false, isAiSpeaking := false,
        webAudioAvailable := true, scheduledBuffers := [],
        currentAudioTime := 7, lastAudioStartTime := 0,
        lastInterruptTime := 0, userHasSpoken := false,
        falsePositiveTimerArmed := false, serverVADBuffer := [],
        sentMessages := [] } 7 =
      { audioQueue := [], isAudioPlaying := false, isAiSpeaking := false,
        webAudioAvailable := true, scheduledBuffers := [],
        currentAudioTime := 7, lastAudioStartTime := 0,
        lastInterruptTime := 0, userHasSpoken := false,
        falsePositiveTimerArmed := false, serverVADBuffer := [],
        sentMessages := [] } := by
  have hidle : playbackIdle
      { audioQueue := [], isAudioPlaying := false, isAiSpeaking := false,
        webAudioAvailable := true, scheduledBuffers := [],
        currentAudioTime := 7, lastAudioStartTime := 0,
        lastInterruptTime := 0, userHasSpoken := false,
        falsePositiveTimerArmed := false, serverVADBuffer := [],
        sentMessages := [] } 7 := by
    refine ⟨rfl, rfl, rfl, rfl, fun _ => rfl⟩
  exact ⟨hidle, (stop_and_flush_idempotent _ 7).2.2 hidle⟩

/-! ### Interrupt arbiter
From `app.js`: the `onVADUpdate` callback installed in
`initializeClientVAD`. The file contains two variants of the callback with
identical structure and different constants: the `SileroVADClient` wiring
(guard 1000 ms, rate limit 2000 ms, threshold `vadConfig.interruptThreshold`,
a redundant low-confidence re-check, `userHasSpoken` reset and a
false-positive timer) and the `ClientVAD` wiring (guard 500 ms, rate limit
1000 ms, threshold 0.6, none of the extras). Both are instances of the
parameterised arbiter below. `sendThrows` models `socket.send` raising: the
handler then stops at that point, with every effect already performed kept
and everything after it skipped. The `updateVadStatus` display call is
DOM-only and outside this state. -/

structure ArbiterConfig where
  interruptThreshold : ℚ
  feedbackGuardMs : ℚ
  minInterruptIntervalMs : ℚ
  recheckConfidence : Bool
  resetUserSpoken : Bool
  armTimer : Bool
  source : String

/-- The `SileroVADClient` wiring of `onVADUpdate` (app.js, first
`initializeClientVAD`); the app constructs it with
`vadConfig.interruptThreshold = 0.85`. -/
def sileroArbiterConfig (interruptThreshold : ℚ) : ArbiterConfig :=
  { interruptThreshold := interruptThreshold, feedbackGuardMs := 1000,
    minInterruptIntervalMs := 2000, recheckConfidence := true,
    resetUserSpoken := true, armTimer := true,
    source := "silero_vad_immediate" }

/-- The `ClientVAD` wiring of `onVADUpdate` (app.js, second
`initializeClientVAD`). -/
def clientArbiterConfig : ArbiterConfig :=
  { interruptThreshold := 6/10, feedbackGuardMs := 500,
    minInterruptIntervalMs := 1000, recheckConfidence := false,
    resetUserSpoken := false, armTimer := false,
    source := "client_vad_immediate" }

/-- Observable effects the interrupt handlers perform, in program order. -/
inductive ArbiterAction where
  | stopPlayback
  | sendInterrupt (source : String)
  | armFalsePositiveTimer
deriving DecidableEq

def isSendAction : ArbiterAction → Bool
  | ArbiterAction.sendInterrupt _ => true
  | _ => false

/-- A `stopPlayback` occurs strictly before the first `sendInterrupt`. -/
def stopBeforeFirstSend (acts : List ArbiterAction) : Bool :=
  (acts.takeWhile fun a => !isSendAction a).any
    fun a => decide (a = ArbiterAction.stopPlayback)

/-- The body of an accepted interrupt in `onVADUpdate`, after
`lastInterruptTime` (and `userHasSpoken`) have been recorded in `st1`:
STEP 1 stop playback, STEP 2 send the interrupt message (skipped when the
socket is not open; aborting everything later if the send raises), STEP 3
arm the false-positive timer (silero variant only). -/
def interruptAcceptEffects (cfg : ArbiterConfig) (st1 : AppState)
    (speechProb now ctxNow : ℚ) (socketOpen sendThrows : Bool) :
    AppState × List ArbiterAction :=
  let st2 := stopAudioPlayback st1 ctxNow
  if socketOpen = true then
    if sendThrows = true then (st2, [ArbiterAction.stopPlayback])
    else
      let st3 := { st2 with sentMessages := st2.sentMessages ++
                    [{ source := cfg.source, speechProb := some speechProb,
                       timestamp := some now }] }
      if cfg.armTimer = true then
        ({ st3 with falsePositiveTimerArmed := true },
          [ArbiterAction.stopPlayback, ArbiterAction.sendInterrupt cfg.source,
            ArbiterAction.armFalsePositiveTimer])
      else
        (st3, [ArbiterAction.stopPlayback,
          ArbiterAction.sendInterrupt cfg.source])
  else
    if cfg.armTimer = true then
      ({ st2 with falsePositiveTimerArmed := true },
        [ArbiterAction.stopPlayback, ArbiterAction.armFalsePositiveTimer])
    else (st2, [ArbiterAction.stopPlayback])

/-- The `onVADUpdate` arbiter callback: fires on each VAD update
`(speechProb, isSpeaking)`; `now` is `Date.now()`, `ctxNow` the WebAudio
clock, `socketOpen` models `socket && socket.readyState === OPEN`.
Returns the new state and the trace of completed effects. -/
def onVADUpdate (cfg : ArbiterConfig) (st : AppState) (speechProb : ℚ)
    (isSpeaking : Bool) (now ctxNow : ℚ) (socketOpen sendThrows : Bool) :
    AppState × List ArbiterAction :=
  if st.isAiSpeaking = true ∧ isSpeaking = true ∧
      cfg.interruptThreshold < speechProb then
    -- `timeSinceAudioStart = currentTime - (this.lastAudioStartTime || 0)`
    if now - st.lastAudioStartTime < cfg.feedbackGuardMs then (st, [])
    else if now - st.lastInterruptTime < cfg.minInterruptIntervalMs then (st, [])
    else if cfg.recheckConfidence = true ∧ speechProb < cfg.interruptThreshold then
      (st, [])
    else
      let st1 := { st with
        lastInterruptTime := now,
        userHasSpoken :=
          (if cfg.resetUserSpoken = true then false else st.userHasSpoken) }
      interruptAcceptEffects cfg st1 speechProb now ctxNow socketOpen sendThrows
  else (st, [])

/-- `confirmServerSpeechActivity` (app.js): the sustained-speech check
reduced to the bare flag. -/
def confirmServerSpeechActivity (speechDetected : Bool) : Bool := speechDetected

/-- The `{type: "interrupt", source: "server_vad_fallback"}` message. -/
def serverFallbackMsg : InterruptMsg :=
  { source := "server_vad_fallback", speechProb := none, timestamp := none }

/-- The `vad_status` fallback branch of `handleWebSocketMessage` (app.js):
server VAD drives the barge-in when the local VAD is unavailable. Note the
code sends the interrupt message first and stops playback second. -/
def handleVadStatus (st : AppState) (speechDetected vadEnabled : Bool)
    (minInterruptInterval : ℚ) (now ctxNow : ℚ) (socketOpen sendThrows : Bool) :
    AppState × List ArbiterAction :=
  if vadEnabled = false ∧ st.isAiSpeaking = true ∧ speechDetected = true then
    let st0 := { st with serverVADBuffer := st.serverVADBuffer ++ [now] }
    if now - st0.lastAudioStartTime < 1200 then (st0, [])
    else if confirmServerSpeechActivity speechDetected = false then (st0, [])
    else if now - st0.lastInterruptTime < minInterruptInterval * (3/2) then
      (st0, [])
    else
      let st1 := { st0 with lastInterruptTime := now }
      if socketOpen = true then
        if sendThrows = true then (st1, [])
        else
          let st2 := { st1 with sentMessages := st1.sentMessages ++
                        [serverFallbackMsg] }
          (stopAudioPlayback st2 ctxNow,
            [ArbiterAction.sendInterrupt "server_vad_fallback",
              ArbiterAction.stopPlayback])
      else
        (stopAudioPlayback st1 ctxNow, [ArbiterAction.stopPlayback])
  else (st, [])

/-- Feed a list of VAD updates `(speechProb, isSpeaking, now, ctxNow)`
through the arbiter, accumulating the effect trace. -/
def runVADUpdates (cfg : ArbiterConfig) (st : AppState)
    (updates : List (ℚ × Bool × ℚ × ℚ)) (socketOpen sendThrows : Bool) :
    AppState × List ArbiterAction :=
  updates.foldl
    (fun acc u =>
      let r := onVADUpdate cfg acc.1 u.1 u.2.1 u.2.2.1 u.2.2.2 socketOpen sendThrows
      (r.1, acc.2 ++ r.2))
    (st, [])

lemma stopAudioPlayback_fields (s : AppState) (t : ℚ) :
    (stopAudioPlayback s t).audioQueue = [] ∧
    (stopAudioPlayback s t).isAudioPlaying = false ∧
    (stopAudioPlayback s t).isAiSpeaking = false ∧
    (stopAudioPlayback s t).sentMessages = s.sentMessages ∧
    (stopAudioPlayback s t).lastInterruptTime = s.lastInterruptTime := by
  simp only [stopAudioPlayback]
  split_ifs <;> simp

/-- A session mid-playback: the agent is speaking, one chunk queued,
playback started at time 0, no interrupt yet accepted. -/
def exampleAppState : AppState :=
  { audioQueue := [{ data := [0], sampleRate := 22050 }],
    isAudioPlaying := true, isAiSpeaking := true, webAudioAvailable := true,
    scheduledBuffers := [3], currentAudioTime := 2, lastAudioStartTime := 0,
    lastInterruptTime := 0, userHasSpoken := false,
    falsePositiveTimerArmed := false, serverVADBuffer := [],
    sentMessages := [] }

/-- Counterexample to C1: in the server-VAD fallback path (the
`vad_status` branch used when the local VAD is unavailable — an accepted
interrupt decision with source `server_vad_fallback`), the code sends the
interrupt message BEFORE invoking the playback stop: the effect trace is
send-then-stop, and if the send raises, the stop never happens — the
queue stays non-empty and `isAiSpeaking` stays true even though the
decision was accepted (`lastInterruptTime` was advanced). -/
theorem stop_before_notify_counterexample :
    (handleVadStatus exampleAppState true false 2000 5000 0 true false).2 =
      [ArbiterAction.sendInterrupt "server_vad_fallback",
        ArbiterAction.stopPlayback] ∧
    stopBeforeFirstSend
      (handleVadStatus exampleAppState true false 2000 5000 0 true false).2 =
      false ∧
    (handleVadStatus exampleAppState true false 2000 5000 0 true true).1.isAiSpeaking
      = true ∧
    (handleVadStatus exampleAppState true false 2000 5000 0 true true).1.audioQueue
      = [{ data := [0], sampleRate := 22050 }] ∧
    (handleVadStatus exampleAppState true false 2000 5000 0 true true).1.lastInterruptTime
      = 5000 := by
  have h1 : handleVadStatus exampleAppState true false 2000 5000 0 true false =
      ({ audioQueue := [], isAudioPlaying := false, isAiSpeaking := false,
          webAudioAvailable := true, scheduledBuffers := [],
          currentAudioTime := 0, lastAudioStartTime := 0,
          lastInterruptTime := 5000, userHasSpoken := false,
          falsePositiveTimerArmed := false, serverVADBuffer := [5000],
          sentMessages := [serverFallbackMsg] },
        [ArbiterAction.sendInterrupt "server_vad_fallback",
          ArbiterAction.stopPlayback]) := by
    norm_num [handleVadStatus, confirmServerSpeechActivity, exampleAppState,
      stopAudioPlayback]
  have h2 : handleVadStatus exampleAppState true false 2000 5000 0 true true =
      ({ audioQueue := [{ data := [0], sampleRate := 22050 }],
          isAudioPlaying := true, isAiSpeaking := true,
          webAudioAvailable := true, scheduledBuffers := [3],
          currentAudioTime := 2, lastAudioStartTime := 0,
          lastInterruptTime := 5000, userHasSpoken := false,
          falsePositiveTimerArmed := false, serverVADBuffer := [5000],
          sentMessages := [] }, []) := by
    norm_num [handleVadStatus, confirmServerSpeechActivity, exampleAppState]
  refine ⟨?_, ?_, ?_, ?_, ?_⟩ <;>
    simp [h1, h2, stopBeforeFirstSend, isSendAction]

/-- C1 as amended: in the two local-VAD `onVADUpdate` arbiter paths
(`silero_vad_immediate` / `client_vad_immediate`), every accepted
interrupt stops and flushes playback strictly before the interrupt
message is sent (queue empty, `isAiSpeaking` false in the final state), a
send exception cannot undo the already-applied stop, and whether the
decision is accepted does not depend on the send outcome; the server-VAD
fallback path instead notifies first and stops second (see the
counterexample). -/
theorem stop_before_notify_amended (cfg : ArbiterConfig) (st : AppState)
    (p : ℚ) (spk : Bool) (now ctxNow : ℚ) (so sth : Bool) :
    (ArbiterAction.stopPlayback ∈ (onVADUpdate cfg st p spk now ctxNow so sth).2 →
      (onVADUpdate cfg st p spk now ctxNow so sth).1.audioQueue = [] ∧
      (onVADUpdate cfg st p spk now ctxNow so sth).1.isAiSpeaking = false ∧
      (onVADUpdate cfg st p spk now ctxNow so sth).1.isAudioPlaying = false) ∧
    ((onVADUpdate cfg st p spk now ctxNow so sth).2.any isSendAction = true →
      stopBeforeFirstSend (onVADUpdate cfg st p spk now ctxNow so sth).2 = true) ∧
    (ArbiterAction.stopPlayback ∈ (onVADUpdate cfg st p spk now ctxNow so true).2 ↔
      ArbiterAction.stopPlayback ∈ (onVADUpdate cfg st p spk now ctxNow so false).2) := by
  have haccept : ∀ (st1 : AppState) (sth : Bool),
      ArbiterAction.stopPlayback ∈
        (interruptAcceptEffects cfg st1 p now ctxNow so sth).2 ∧
      (interruptAcceptEffects cfg st1 p now ctxNow so sth).1.audioQueue = [] ∧
      (interruptAcceptEffects cfg st1 p now ctxNow so sth).1.isAiSpeaking = false ∧
      (interruptAcceptEffects cfg st1 p now ctxNow so sth).1.isAudioPlaying = false ∧
      stopBeforeFirstSend (interruptAcceptEffects cfg st1 p now ctxNow so sth).2
        = true := by
    intro st1 sth
    simp only [interruptAcceptEffects]
    split_ifs <;>
      simp [stopAudioPlayback_fields, stopBeforeFirstSend, isSendAction]
  refine ⟨?_, ?_, ?_⟩
  · simp only [onVADUpdate]
    split_ifs
    all_goals try simp
    all_goals
      (intros;
        exact ⟨(haccept _ sth).2.1, (haccept _ sth).2.2.1, (haccept _ sth).2.2.2.1⟩)
  · simp only [onVADUpdate]
    split_ifs
    all_goals try simp
    all_goals (intros; exact (haccept _ sth).2.2.2.2)
  · simp only [onVADUpdate]
    split_ifs
    all_goals try simp
    all_goals simp [(haccept _ true).1, (haccept _ false).1]

/-- Witness for the amended C1: a concrete accepted interrupt in the
`ClientVAD` arbiter path leaves the queue flushed and the agent silent,
and its trace stops before it sends. -/
theorem stop_before_notify_amended_witness :
    ((onVADUpdate clientArbiterConfig exampleAppState (7/10) true 1600 0 true
        false).1.audioQueue = [] ∧
      (onVADUpdate clientArbiterConfig exampleAppState (7/10) true 1600 0 true
        false).1.isAiSpeaking = false ∧
      (onVADUpdate clientArbiterConfig exampleAppState (7/10) true 1600 0 true
        false).1.isAudioPlaying = false) ∧
    stopBeforeFirstSend
      (onVADUpdate clientArbiterConfig exampleAppState (7/10) true 1600 0 true
        false).2 = true := by
  have hmem : ArbiterAction.stopPlayback ∈
      (onVADUpdate clientArbiterConfig exampleAppState (7/10) true 1600 0 true
        false).2 := by
    norm_num [onVADUpdate, interruptAcceptEffects, stopAudioPlayback,
      clientArbiterConfig, exampleAppState]
  have hany : (onVADUpdate clientArbiterConfig exampleAppState (7/10) true 1600 0
      true false).2.any isSendAction = true := by
    norm_num [onVADUpdate, interruptAcceptEffects, stopAudioPlayback,
      clientArbiterConfig, exampleAppState, isSendAction]
  exact ⟨(stop_before_notify_amended clientArbiterConfig exampleAppState (7/10)
      true 1600 0 true false).1 hmem,
    (stop_before_notify_amended clientArbiterConfig exampleAppState (7/10)
      true 1600 0 true false).2.1 hany⟩

lemma interruptAcceptEffects_stop_mem (cfg : ArbiterConfig) (st1 : AppState)
    (p now ctxNow : ℚ) (so sth : Bool) :
    ArbiterAction.stopPlayback ∈
      (interruptAcceptEffects cfg st1 p now ctxNow so sth).2 := by
  simp only [interruptAcceptEffects]
  split_ifs <;> simp

lemma interruptAcceptEffects_lastInterruptTime (cfg : ArbiterConfig)
    (st1 : AppState) (p now ctxNow : ℚ) (so sth : Bool) :
    (interruptAcceptEffects cfg st1 p now ctxNow so sth).1.lastInterruptTime =
      st1.lastInterruptTime := by
  simp only [interruptAcceptEffects]
  split_ifs <;> simp [stopAudioPlayback_fields]

lemma interruptAcceptEffects_sent (cfg : ArbiterConfig) (st1 : AppState)
    (p now ctxNow : ℚ) :
    (interruptAcceptEffects cfg st1 p now ctxNow true false).1.sentMessages =
      st1.sentMessages ++
        [{ source := cfg.source, speechProb := some p, timestamp := some now }] := by
  simp only [interruptAcceptEffects]
  split_ifs <;> simp_all [stopAudioPlayback_fields]

/-- C2: while the agent is speaking, a VAD update above the interrupt
threshold arriving less than `feedbackGuardMs` after `lastAudioStartTime`
is rejected — no stop, no message, the arbiter state entirely unchanged —
while an otherwise identical update after the guard window, with the rate
limit also satisfied, is accepted: playback is stopped and flushed,
`lastInterruptTime` is advanced to the update's time, and (socket open,
send succeeding) the interrupt message is emitted. -/
theorem feedback_guard_correct (cfg : ArbiterConfig) (st : AppState) (p : ℚ)
    (spk : Bool) (now1 now2 ctxNow : ℚ) (so sth : Bool) :
    (st.isAiSpeaking = true → spk = true → cfg.interruptThreshold < p →
      now1 - st.lastAudioStartTime < cfg.feedbackGuardMs →
      onVADUpdate cfg st p spk now1 ctxNow so sth = (st, [])) ∧
    (st.isAiSpeaking = true → spk = true → cfg.interruptThreshold < p →
      cfg.feedbackGuardMs ≤ now2 - st.lastAudioStartTime →
      cfg.minInterruptIntervalMs ≤ now2 - st.lastInterruptTime →
      ArbiterAction.stopPlayback ∈ (onVADUpdate cfg st p spk now2 ctxNow so sth).2 ∧
      (onVADUpdate cfg st p spk now2 ctxNow so sth).1.lastInterruptTime = now2 ∧
      (onVADUpdate cfg st p spk now2 ctxNow true false).1.sentMessages =
        st.sentMessages ++
          [{ source := cfg.source, speechProb := some p,
             timestamp := some now2 }]) := by
  constructor
  · intro hai hspk hp hguard
    simp only [onVADUpdate]
    rw [if_pos ⟨hai, hspk, hp⟩, if_pos hguard]
  · intro hai hspk hp hguard hrate
    have hnotguard : ¬(now2 - st.lastAudioStartTime < cfg.feedbackGuardMs) :=
      not_lt.mpr hguard
    have hnotrate : ¬(now2 - st.lastInterruptTime < cfg.minInterruptIntervalMs) :=
      not_lt.mpr hrate
    have hnotrecheck : ¬(cfg.recheckConfidence = true ∧ p < cfg.interruptThreshold) :=
      fun hc => absurd hc.2 (not_lt.mpr (le_of_lt hp))
    simp only [onVADUpdate]
    rw [if_pos ⟨hai, hspk, hp⟩, if_neg hnotguard, if_neg hnotrate,
      if_neg hnotrecheck]
    refine ⟨interruptAcceptEffects_stop_mem _ _ _ _ _ _ _, ?_, ?_⟩
    · rw [interruptAcceptEffects_lastInterruptTime]
    · rw [if_pos ⟨hai, hspk, hp⟩, if_neg hnotguard, if_neg hnotrate,
        if_neg hnotrecheck, interruptAcceptEffects_sent]

/-- Witness for C2: with the silero arbiter constants (guard 1000 ms,
threshold 0.85), an update 100 ms after playback start is rejected
unchanged and the identical update at 2500 ms is accepted. -/
theorem feedback_guard_correct_witness :
    onVADUpdate (sileroArbiterConfig (85/100)) exampleAppState (9/10) true 100 0
      true false = (exampleAppState, []) ∧
    ArbiterAction.stopPlayback ∈
      (onVADUpdate (sileroArbiterConfig (85/100)) exampleAppState (9/10) true
        2500 0 true false).2 := by
  constructor
  · exact (feedback_guard_correct (sileroArbiterConfig (85/100)) exampleAppState
      (9/10) true 100 2500 0 true false).1 rfl rfl
      (by norm_num [sileroArbiterConfig])
      (by norm_num [sileroArbiterConfig, exampleAppState])
  · exact ((feedback_guard_correct (sileroArbiterConfig (85/100)) exampleAppState
      (9/10) true 100 2500 0 true false).2 rfl rfl
      (by norm_num [sileroArbiterConfig])
      (by norm_num [sileroArbiterConfig, exampleAppState])
      (by norm_num [sileroArbiterConfig, exampleAppState])).1

/-- C3: a qualifying update arriving less than `minInterruptIntervalMs`
after `lastInterruptTime` (which conjunct two shows is exactly the time of
the last accepted interrupt) is rejected with the state unchanged;
acceptance requires the full window to have elapsed; and concretely, two
qualifying updates 200 ms apart under the 1000 ms window of the ClientVAD
arbiter produce exactly one stop and exactly one interrupt message. -/
theorem rate_limit_correct (cfg : ArbiterConfig) (st : AppState) (p : ℚ)
    (spk : Bool) (now ctxNow : ℚ) (so sth : Bool) :
    (now - st.lastInterruptTime < cfg.minInterruptIntervalMs →
      onVADUpdate cfg st p spk now ctxNow so sth = (st, [])) ∧
    (ArbiterAction.stopPlayback ∈ (onVADUpdate cfg st p spk now ctxNow so sth).2 →
      cfg.minInterruptIntervalMs ≤ now - st.lastInterruptTime ∧
      (onVADUpdate cfg st p spk now ctxNow so sth).1.lastInterruptTime = now) ∧
    ((runVADUpdates clientArbiterConfig exampleAppState
        [(7/10, true, 1600, 0), (7/10, true, 1800, 0)] true false).2.filter
          (fun a => isSendAction a)).length = 1 ∧
    ((runVADUpdates clientArbiterConfig exampleAppState
        [(7/10, true, 1600, 0), (7/10, true, 1800, 0)] true false).2.filter
          (fun a => decide (a = ArbiterAction.stopPlayback))).length = 1 := by
  refine ⟨?_, ?_, ?_, ?_⟩
  · intro hrate
    simp only [onVADUpdate]
    by_cases hgate : st.isAiSpeaking = true ∧ spk = true ∧
        cfg.interruptThreshold < p
    · rw [if_pos hgate]
      by_cases hguard : now - st.lastAudioStartTime < cfg.feedbackGuardMs
      · rw [if_pos hguard]
      · rw [if_neg hguard, if_pos hrate]
    · rw [if_neg hgate]
  · intro hmem
    simp only [onVADUpdate] at hmem ⊢
    by_cases hgate : st.isAiSpeaking = true ∧ spk = true ∧
        cfg.interruptThreshold < p
    case neg => rw [if_neg hgate] at hmem; simp at hmem
    rw [if_pos hgate] at hmem ⊢
    by_cases hguard : now - st.lastAudioStartTime < cfg.feedbackGuardMs
    case pos => rw [if_pos hguard] at hmem; simp at hmem
    rw [if_neg hguard] at hmem ⊢
    by_cases hrate : now - st.lastInterruptTime < cfg.minInterruptIntervalMs
    case pos => rw [if_pos hrate] at hmem; simp at hmem
    rw [if_neg hrate] at hmem ⊢
    by_cases hre : cfg.recheckConfidence = true ∧ p < cfg.interruptThreshold
    case pos => rw [if_pos hre] at hmem; simp at hmem
    rw [if_neg hre] at hmem ⊢
    exact ⟨not_lt.mp hrate, by rw [interruptAcceptEffects_lastInterruptTime]⟩
  · norm_num [runVADUpdates, onVADUpdate, interruptAcceptEffects,
      stopAudioPlayback, clientArbiterConfig, exampleAppState, isSendAction]
  · norm_num [runVADUpdates, onVADUpdate, interruptAcceptEffects,
      stopAudioPlayback, clientArbiterConfig, exampleAppState, isSendAction]
    simp

/-- The session state just after the first accepted interrupt at t = 1600
with playback restarted at t = 1200 — the configuration in which the rate
limit (rather than the gate or the feedback guard) is the operative
check. -/
def exampleRestartState : AppState :=
  { exampleAppState with
    lastInterruptTime := 1600, lastAudioStartTime := 1200 }

/-- Witness for C3: a second qualifying update 200 ms after the accepted
interrupt (guard already elapsed) is rejected with the state unchanged. -/
theorem rate_limit_correct_witness :
    1800 - exampleRestartState.lastInterruptTime <
      clientArbiterConfig.minInterruptIntervalMs ∧
    onVADUpdate clientArbiterConfig exampleRestartState (7/10) true 1800 0
      true false = (exampleRestartState, []) := by
  have h : (1800 : ℚ) - exampleRestartState.lastInterruptTime <
      clientArbiterConfig.minInterruptIntervalMs := by
    norm_num [exampleRestartState, exampleAppState, clientArbiterConfig]
  exact ⟨h, (rate_limit_correct clientArbiterConfig exampleRestartState (7/10)
    true 1800 0 true false).1 h⟩

/-! ### Gapless playback scheduling
From `app.js`: the `ai_response_chunk` handler enqueues; `playNextAudioChunk`
pops the queue front (`shift`), and `playAudioChunkWebAudio` schedules the
decoded buffer at `max(now, currentAudioTime)` and advances the cursor by
the buffer's duration; on `onended` the loop recurses into the next
chunk. -/

/-- The `ai_response_chunk` branch of `handleWebSocketMessage`:
`audioQueue.push(...)` (and `playNextAudioChunk()` if idle, which the
scheduling loop below models). -/
def enqueueAiResponseChunk (st : AppState) (c : SynthesisChunk) : AppState :=
  { st with audioQueue := st.audioQueue ++ [c] }

/-- The WebAudio playback loop run to completion on a queue: chunk `k` is
shifted from the queue front and scheduled at
`startTime = max(now_k, currentAudioTime)`, after which
`currentAudioTime := startTime + duration`. `dur` gives each decoded
buffer's duration and `nows` the WebAudio clock at each iteration (both
are external inputs: the decoder and the clock). Returns the chunks in
play order with their scheduled start times. -/
def scheduleChunks (dur : SynthesisChunk → ℚ) :
    List SynthesisChunk → List ℚ → ℚ → List (SynthesisChunk × ℚ)
  | [], _, _ => []
  | _ :: _, [], _ => []
  | c :: q, now :: nows, cat =>
      let startTime := max now cat
      (c, startTime) :: scheduleChunks dur q nows (startTime + dur c)

lemma scheduleChunks_fst (dur : SynthesisChunk → ℚ) (q : List SynthesisChunk) :
    ∀ (nows : List ℚ) (cat : ℚ), q.length ≤ nows.length →
      (scheduleChunks dur q nows cat).map Prod.fst = q := by
  induction q with
  | nil => intro nows cat _; cases nows <;> simp [scheduleChunks]
  | cons c q ih =>
      intro nows cat hlen
      cases nows with
      | nil => simp at hlen
      | cons now nows =>
          simp only [scheduleChunks, List.map_cons, List.cons.injEq, true_and]
          exact ih nows _ (by simpa using hlen)

lemma scheduleChunks_chain (dur : SynthesisChunk → ℚ) (q : List SynthesisChunk)
    (hdur : ∀ c ∈ q, 0 ≤ dur c) :
    ∀ (nows : List ℚ) (cat : ℚ),
      List.Chain' (· ≤ ·) ((scheduleChunks dur q nows cat).map Prod.snd) ∧
      (∀ y ∈ ((scheduleChunks dur q nows cat).map Prod.snd).head?, cat ≤ y) := by
  induction q with
  | nil => intro nows cat; cases nows <;> simp [scheduleChunks]
  | cons c q ih =>
      intro nows cat
      have hc : 0 ≤ dur c := hdur c (by simp)
      have hq : ∀ x ∈ q, 0 ≤ dur x := fun x hx => hdur x (by simp [hx])
      cases nows with
      | nil => simp [scheduleChunks]
      | cons now nows =>
          obtain ⟨ihchain, ihhead⟩ := (ih hq) nows (max now cat + dur c)
          simp only [scheduleChunks, List.map_cons]
          constructor
          · rw [List.chain'_cons']
            refine ⟨?_, ihchain⟩
            intro y hy
            have := ihhead y hy
            have hstep : max now cat ≤ max now cat + dur c := by linarith
            exact le_trans hstep this
          · intro y hy
            simp only [List.head?_cons, Option.mem_def, Option.some.injEq] at hy
            subst hy
            exact le_max_right _ _

/-- C6: enqueuing appends in arrival order (so the queue holds C1, C2, C3
in that order), the playback loop consumes the queue in exactly FIFO order
with no reordering, and the scheduled start times
`max(now, currentAudioTime)` are monotonically non-decreasing across
successive chunks (given non-negative decoded durations and enough clock
readings to play the whole queue). -/
theorem playback_fifo_gapless (dur : SynthesisChunk → ℚ)
    (q cs : List SynthesisChunk) (nows : List ℚ) (cat : ℚ) (st : AppState)
    (hlen : q.length ≤ nows.length) (hdur : ∀ c ∈ q, 0 ≤ dur c) :
    (List.foldl enqueueAiResponseChunk st cs).audioQueue =
      st.audioQueue ++ cs ∧
    (scheduleChunks dur q nows cat).map Prod.fst = q ∧
    List.Chain' (· ≤ ·) ((scheduleChunks dur q nows cat).map Prod.snd) := by
  refine ⟨?_, scheduleChunks_fst dur q nows cat hlen,
    (scheduleChunks_chain dur q hdur nows cat).1⟩
  induction cs generalizing st with
  | nil => simp
  | cons c cs ih =>
      rw [List.foldl_cons, ih]
      simp [enqueueAiResponseChunk]

/-- Witness for C6: three chunks enqueued in order are played in that
order with non-decreasing start times. -/
theorem playback_fifo_gapless_witness :
    (([{ data := [1], sampleRate := 22050 },
        { data := [2], sampleRate := 22050 },
        { data := [3], sampleRate := 22050 }] :
        List SynthesisChunk).length ≤ ([0, 5, 5] : List ℚ).length ∧
      (∀ c ∈ ([{ data := [1], sampleRate := 22050 },
        { data := [2], sampleRate := 22050 },
        { data := [3], sampleRate := 22050 }] : List SynthesisChunk),
        (0 : ℚ) ≤ 1)) ∧
    (scheduleChunks (fun _ => 1)
        [{ data := [1], sampleRate := 22050 },
          { data := [2], sampleRate := 22050 },
          { data := [3], sampleRate := 22050 }] [0, 5, 5] 0).map Prod.fst =
      [{ data := [1], sampleRate := 22050 },
        { data := [2], sampleRate := 22050 },
        { data := [3], sampleRate := 22050 }] ∧
    List.Chain' (· ≤ ·)
      ((scheduleChunks (fun _ => 1)
        [{ data := [1], sampleRate := 22050 },
          { data := [2], sampleRate := 22050 },
          { data := [3], sampleRate := 22050 }] [0, 5, 5] 0).map Prod.snd) := by
  have h := playback_fifo_gapless (fun _ => 1)
    [{ data := [1], sampleRate := 22050 },
      { data := [2], sampleRate := 22050 },
      { data := [3], sampleRate := 22050 }] []
    [0, 5, 5] 0
    { audioQueue := [], isAudioPlaying := false, isAiSpeaking := false,
      webAudioAvailable := true, scheduledBuffers := [], currentAudioTime := 0,
      lastAudioStartTime := 0, lastInterruptTime := 0, userHasSpoken := false,
      falsePositiveTimerArmed := false, serverVADBuffer := [],
      sentMessages := [] }
    (by norm_num) (by intro c _; norm_num)
  exact ⟨⟨by norm_num, by intro c _; norm_num⟩, h.2.1, h.2.2⟩

/-! ### Real-time audio sender deduplication
From `app.js`: `getAudioHash` (the `(hash << 5) - hash + byte; hash |= 0`
loop) and `sendRealTimeAudioChunk` (drop duplicates seen within 500 ms,
record the hash, prune entries older than 2000 ms, send). `Map` is
modelled as an insertion-ordered association list with `Map.set`
update-in-place semantics. -/

/-- Wrap an integer into signed 32-bit range: the effect of `|= 0` (and of
`<< 5`) on a JavaScript number. `2147483648 = 2 ^ 31`,
`4294967296 = 2 ^ 32`. -/
def toInt32 (n : ℤ) : ℤ := (n + 2147483648) % 4294967296 - 2147483648

/-- One step of the hash loop:
`hash = (hash << 5) - hash + byteArray[i]; hash |= 0`. The shift wraps its
result to 32 bits; the subtraction and addition are exact. -/
def hashStep (h b : ℤ) : ℤ := toInt32 (toInt32 (h * 32) - h + b)

/-- `SalesAgentApp.getAudioHash(byteArray)`. -/
def getAudioHash (bytes : List ℤ) : ℤ := bytes.foldl hashStep 0

/-- An outbound `{type: "audio_stream_realtime", ...}` message. -/
structure RealTimeMsg where
  data : List ℤ
  timestamp : ℚ
deriving DecidableEq

structure SenderState where
  recentAudioHashes : List (ℤ × ℚ)
  sentAudio : List RealTimeMsg
deriving DecidableEq

/-- `Map.get` / `Map.has`: the first (unique) entry with the key. -/
def mapGet (m : List (ℤ × ℚ)) (k : ℤ) : Option ℚ :=
  (m.find? fun e => decide (e.1 = k)).map Prod.snd

/-- `Map.set`: update the entry in place if the key is present, append
otherwise. -/
def mapSet (m : List (ℤ × ℚ)) (k : ℤ) (v : ℚ) : List (ℤ × ℚ) :=
  if m.any fun e => decide (e.1 = k) then
    m.map fun e => if e.1 = k then (k, v) else e
  else m ++ [(k, v)]

/-- The cleanup loop: delete every entry with `now - timestamp > 2000`. -/
def pruneHashes (m : List (ℤ × ℚ)) (now : ℚ) : List (ℤ × ℚ) :=
  m.filter fun e => decide (¬(2000 < now - e.2))

/-- `SalesAgentApp.sendRealTimeAudioChunk(pcm16Buffer)`: silently drop a
chunk whose hash was sent within the last 500 ms; otherwise record the
hash at `now`, prune entries older than 2000 ms, and send. -/
def sendRealTimeAudioChunk (st : SenderState) (bytes : List ℤ) (now : ℚ)
    (socketOpen : Bool) : SenderState :=
  if socketOpen = true then
    let audioHash := getAudioHash bytes
    let dup :=
      match mapGet st.recentAudioHashes audioHash with
      | some t => decide (now - t < 500)
      | none => false
    if dup = true then st
    else
      { recentAudioHashes :=
          pruneHashes (mapSet st.recentAudioHashes audioHash now) now,
        sentAudio := st.sentAudio ++ [{ data := bytes, timestamp := now }] }
  else st

lemma toInt32_range (n : ℤ) : -2147483648 ≤ toInt32 n ∧ toInt32 n < 2147483648 := by
  unfold toInt32
  omega

lemma getAudioHash_range (bytes : List ℤ) :
    -2147483648 ≤ getAudioHash bytes ∧ getAudioHash bytes < 2147483648 := by
  have main : ∀ (l : List ℤ) (acc : ℤ),
      -2147483648 ≤ acc → acc < 2147483648 →
      -2147483648 ≤ l.foldl hashStep acc ∧ l.foldl hashStep acc < 2147483648 := by
    intro l
    induction l with
    | nil => intro acc h1 h2; exact ⟨h1, h2⟩
    | cons b l ih =>
        intro acc h1 h2
        rw [List.foldl_cons]
        have := toInt32_range (toInt32 (acc * 32) - acc + b)
        exact ih (hashStep acc b) this.1 this.2
  exact main bytes 0 (by norm_num) (by norm_num)

lemma mapGet_after_fresh_send (m : List (ℤ × ℚ)) (k : ℤ) (now : ℚ)
    (hfresh : mapGet m k = none) :
    mapGet (pruneHashes (mapSet m k now) now) k = some now := by
  have hnone : m.find? (fun e => decide (e.1 = k)) = none := by
    by_contra hne
    rw [Option.eq_none_iff_forall_not_mem] at hne
    push_neg at hne
    obtain ⟨e, he⟩ := hne
    unfold mapGet at hfresh
    rw [Option.eq_none_iff_forall_not_mem] at hfresh
    exact hfresh e.2 (by rw [Option.mem_def] at he ⊢; rw [he]; rfl)
  have hnotany : ¬(m.any fun e => decide (e.1 = k)) = true := by
    rw [List.any_eq_true]
    rintro ⟨e, hmem, hk⟩
    have := List.find?_eq_none.mp hnone e hmem
    exact this hk
  have hallne : ∀ e ∈ m, ¬e.1 = k := by
    intro e hmem
    have := List.find?_eq_none.mp hnone e hmem
    simpa using this
  unfold mapSet
  rw [if_neg hnotany]
  unfold pruneHashes mapGet
  rw [List.filter_append, List.find?_append]
  have hfilterne : (m.filter fun e => decide (¬(2000 < now - e.2))).find?
      (fun e => decide (e.1 = k)) = none := by
    rw [List.find?_eq_none]
    intro e hmem
    simpa using hallne e (List.mem_of_mem_filter hmem)
  rw [hfilterne]
  simp [List.find?, List.filter]

/-- C10: the sender drops (state unchanged, nothing sent) any chunk whose
32-bit content hash was recorded less than 500 ms ago; two byte-identical
chunks sent within 500 ms of each other therefore produce exactly one
network message; after a completed send at time `now` every surviving map
entry is within the 2000 ms window (entries older than 2000 ms are
pruned); and the hash is a true 32-bit value. -/
theorem realtime_dedupe_correct (st : SenderState) (bytes : List ℤ)
    (t now t1 t2 : ℚ) :
    (mapGet st.recentAudioHashes (getAudioHash bytes) = some t →
      now - t < 500 →
      sendRealTimeAudioChunk st bytes now true = st) ∧
    (mapGet st.recentAudioHashes (getAudioHash bytes) = none →
      0 ≤ t2 - t1 → t2 - t1 < 500 →
      (sendRealTimeAudioChunk st bytes t1 true).sentAudio =
        st.sentAudio ++ [{ data := bytes, timestamp := t1 }] ∧
      sendRealTimeAudioChunk (sendRealTimeAudioChunk st bytes t1 true) bytes
        t2 true = sendRealTimeAudioChunk st bytes t1 true) ∧
    (∀ e ∈ (sendRealTimeAudioChunk st bytes now true).recentAudioHashes,
      now - e.2 ≤ 2000 ∨ e ∈ st.recentAudioHashes) ∧
    (-2147483648 ≤ getAudioHash bytes ∧ getAudioHash bytes < 2147483648) := by
  refine ⟨?_, ?_, ?_, getAudioHash_range bytes⟩
  · intro hget hlt
    simp [sendRealTimeAudioChunk, hget, hlt]
  · intro hfresh h0 hlt
    have hsend : sendRealTimeAudioChunk st bytes t1 true =
        { recentAudioHashes :=
            pruneHashes (mapSet st.recentAudioHashes (getAudioHash bytes) t1) t1,
          sentAudio := st.sentAudio ++ [{ data := bytes, timestamp := t1 }] } := by
      simp [sendRealTimeAudioChunk, hfresh]
    refine ⟨by rw [hsend], ?_⟩
    have hget2 : mapGet (sendRealTimeAudioChunk st bytes t1 true).recentAudioHashes
        (getAudioHash bytes) = some t1 := by
      rw [hsend]
      exact mapGet_after_fresh_send _ _ _ hfresh
    set s1 := sendRealTimeAudioChunk st bytes t1 true with hs1
    simp [sendRealTimeAudioChunk, hget2, hlt]
  · intro e hmem
    have hcases : sendRealTimeAudioChunk st bytes now true = st ∨
        (sendRealTimeAudioChunk st bytes now true).recentAudioHashes =
          pruneHashes (mapSet st.recentAudioHashes (getAudioHash bytes) now)
            now := by
      cases hml : mapGet st.recentAudioHashes (getAudioHash bytes) with
      | none => right; simp [sendRealTimeAudioChunk, hml]
      | some t0 =>
          by_cases hd : now - t0 < 500
          · left; simp [sendRealTimeAudioChunk, hml, hd]
          · right; simp [sendRealTimeAudioChunk, hml, hd]
    rcases hcases with hcase | hcase
    · rw [hcase] at hmem
      exact Or.inr hmem
    · rw [hcase] at hmem
      left
      have := List.of_mem_filter hmem
      simpa using this

/-- Witness for C10: from a fresh sender, the same silence chunk sent at
t = 100 and t = 400 yields exactly one outbound message. -/
theorem realtime_dedupe_correct_witness :
    mapGet (⟨[], []⟩ : SenderState).recentAudioHashes (getAudioHash [0, 0]) =
      none ∧
    (sendRealTimeAudioChunk ⟨[], []⟩ [0, 0] 100 true).sentAudio =
      [{ data := [0, 0], timestamp := 100 }] ∧
    sendRealTimeAudioChunk (sendRealTimeAudioChunk ⟨[], []⟩ [0, 0] 100 true)
      [0, 0] 400 true = sendRealTimeAudioChunk ⟨[], []⟩ [0, 0] 100 true := by
  have h := (realtime_dedupe_correct ⟨[], []⟩ [0, 0] 0 0 100 400).2.1
    (by simp [mapGet]) (by norm_num) (by norm_num)
  exact ⟨by simp [mapGet], by simpa using h.1, h.2⟩

end MarkSales
